import Mathlib

/-!
Verification of the `minecraft_terminal_viewer` sources (ansicraft) against
its natural-language specification.  Each section shallowly embeds one part
of the Rust source as executable Lean definitions, then proves or refutes
the corresponding spec claims.
-/

namespace Ansicraft

/-! ## Resource pool (src/queueing.rs)

The pool's event loop (`ResourcePool::resource_queue_manager`, lines 46-89)
keeps a free `VecDeque<u32>` of slots (`available_resources`) and a FIFO
`VecDeque<ResourceRequest>` of waiters (`pending_requests`).  Lists model
the deques with the head at the deque's front.  A request's `cancel`
oneshot is modelled by a boolean `cancelled` recording whether
`cancel.try_recv()` would return `Ok` at the moment the pool inspects it.
-/

/-- Status enum `ResourceStatus` from queueing.rs lines 8-14. -/
inductive ResourceStatus where
  | Success (slot : Nat)
  | Failed (reason : String)
  | QueuePosition (pos : Nat)
  | Cancelled
deriving DecidableEq, Repr

/-- Request record `ResourceRequest` (queueing.rs lines 170-175): the `id` and the observable
state of its `cancel` oneshot.  The `status` sender is modelled by tagging
every emitted status with the request id. -/
structure ResourceRequest where
  id : Nat
  cancelled : Bool
deriving DecidableEq, Repr

/-- The mutable state of `resource_queue_manager`. -/
structure PoolState where
  available : List Nat
  pending : List ResourceRequest
deriving DecidableEq, Repr

/-- The `Some(mut req) = request_rx.recv()` arm (queueing.rs lines 55-67):
`available_resources.pop_front()`; if a slot is free and the request is not
cancelled send `Success`, if cancelled push the slot back and send
`Cancelled`; otherwise send `QueuePosition(pending_requests.len())` and
`pending_requests.push_back(req)`. -/
def acquireStep (s : PoolState) (req : ResourceRequest) :
    PoolState × List (Nat × ResourceStatus) :=
  match s.available with
  | resId :: rest =>
    if !req.cancelled then
      ({ s with available := rest }, [(req.id, .Success resId)])
    else
      ({ s with available := rest ++ [resId] }, [(req.id, .Cancelled)])
  | [] =>
    ({ s with pending := s.pending ++ [req] },
      [(req.id, .QueuePosition s.pending.length)])

/-- The `while let Some(mut req) = pending_requests.pop_front()` loop inside
the release arm (queueing.rs lines 71-78): cancelled waiters are popped and
sent `Cancelled`; the first non-cancelled waiter is popped, sent
`Success(res_id)`, and the loop breaks.  Returns the remaining wait queue
and the emitted statuses. -/
def popWaiters (resId : Nat) :
    List ResourceRequest → List ResourceRequest × List (Nat × ResourceStatus)
  | [] => ([], [])
  | req :: rest =>
    if req.cancelled then
      let (rest2, msgs) := popWaiters resId rest
      (rest2, (req.id, .Cancelled) :: msgs)
    else
      (rest, [(req.id, .Success resId)])

/-- The `Some(res_id) = release_rx.recv()` arm (queueing.rs lines 70-82):
run the waiter loop, then `if pending_requests.is_empty()` push the slot
back into the free set. -/
def releaseStep (s : PoolState) (resId : Nat) :
    PoolState × List (Nat × ResourceStatus) :=
  let (pending2, msgs) := popWaiters resId s.pending
  if pending2.isEmpty then
    ({ available := s.available ++ [resId], pending := pending2 }, msgs)
  else
    ({ s with pending := pending2 }, msgs)

/-- The two events the `tokio::select!` in the event loop can observe. -/
inductive PoolEvent where
  | acquire (req : ResourceRequest)
  | release (slot : Nat)
deriving DecidableEq, Repr

/-- The position broadcast after every select arm (queueing.rs lines 85-87):
each waiter at index `i` is sent `QueuePosition(i)`. -/
def broadcastPositions (pending : List ResourceRequest) :
    List (Nat × ResourceStatus) :=
  pending.enum.map fun p => (p.2.id, .QueuePosition p.1)

/-- One full turn of the event loop: the select arm followed by the
position broadcast. -/
def poolStep (s : PoolState) (e : PoolEvent) :
    PoolState × List (Nat × ResourceStatus) :=
  let (s2, msgs) :=
    match e with
    | .acquire req => acquireStep s req
    | .release slot => releaseStep s slot
  (s2, msgs ++ broadcastPositions s2.pending)

/-- Initial state (queueing.rs lines 26-27):
`available_resources = VecDeque::from((0..resource_count).collect())`,
`pending_requests = VecDeque::new()`. -/
def initPoolState (resourceCount : Nat) : PoolState :=
  { available := List.range resourceCount, pending := [] }

/-- Run the event loop over a list of events, collecting every status sent
to any request's stream, in order. -/
def runPool (resourceCount : Nat) (events : List PoolEvent) :
    PoolState × List (Nat × ResourceStatus) :=
  events.foldl
    (fun acc e =>
      let (s2, msgs) := poolStep acc.1 e
      (s2, acc.2 ++ msgs))
    (initPoolState resourceCount, [])

/-- Method `ResourceAllocator::request_resource` (queueing.rs lines 111-151) spawns
a watcher on the `response` oneshot (`res_rx`) and sends
`Failed("Request cancelled")` on the status stream when the oneshot
resolves with `Err`, i.e. when the `ResourceRequest` is dropped without a
send on `req.response`.  `resource_queue_manager` never sends on
`req.response` (the field is written at line 130 and never read again), so
the watcher's `Err` branch fires for every request once the pool drops it.
This constant records that no code path ever sends on `response`. -/
def responseEverSent : Bool := false

/-- The full status stream an `acquire()` caller observes for request `id`:
everything the event loop sent to that id, followed by the watcher task's
`Failed("Request cancelled")` unless the `response` oneshot was fulfilled. -/
def requestStream (log : List (Nat × ResourceStatus)) (id : Nat) :
    List ResourceStatus :=
  (log.filter (fun p => p.1 == id)).map Prod.snd ++
    (if responseEverSent then [] else [.Failed "Request cancelled"])

/-- A status is terminal when it is `Success`, `Failed` or `Cancelled`. -/
def isTerminal : ResourceStatus → Bool
  | .Success _ => true
  | .Failed _ => true
  | .Cancelled => true
  | .QueuePosition _ => false

/-- Key invariant of the event loop: whenever the wait set is non-empty the
free set is empty.  The free set only ever regains a slot when the wait set
is empty, so the two are never simultaneously non-empty. -/
def PoolInv (s : PoolState) : Prop := s.pending ≠ [] → s.available = []

theorem popWaiters_nil (resId : Nat) : popWaiters resId [] = ([], []) := rfl

theorem popWaiters_pending_sublist (resId : Nat) (l : List ResourceRequest) :
    (popWaiters resId l).1 = [] ∨ l ≠ [] := by
  cases l with
  | nil => exact Or.inl rfl
  | cons a t => exact Or.inr (by simp)

theorem acquireStep_inv (s : PoolState) (req : ResourceRequest)
    (h : PoolInv s) : PoolInv (acquireStep s req).1 := by
  unfold acquireStep
  cases hav : s.available with
  | nil => intro _; simp [hav]
  | cons slot rest =>
    have hp : s.pending = [] := by
      by_contra hne
      simp [h hne] at hav
    cases hc : req.cancelled <;> intro hne <;> simp_all [PoolInv]

theorem releaseStep_inv (s : PoolState) (resId : Nat)
    (h : PoolInv s) : PoolInv (releaseStep s resId).1 := by
  unfold releaseStep
  cases hpw : popWaiters resId s.pending with
  | mk pending2 msgs =>
    by_cases he : pending2.isEmpty
    · simp only [hpw, he, if_true]
      intro hne
      simp [List.isEmpty_iff] at he
      simp [he] at hne
    · simp only [hpw, he, if_false]
      intro _
      apply h
      intro hnil
      rw [hnil] at hpw
      rw [popWaiters_nil] at hpw
      cases hpw
      simp [List.isEmpty_iff] at he

theorem poolStep_inv (s : PoolState) (e : PoolEvent)
    (h : PoolInv s) : PoolInv (poolStep s e).1 := by
  cases e with
  | acquire req => exact acquireStep_inv s req h
  | release slot => exact releaseStep_inv s slot h

theorem runPool_inv (n : Nat) (evs : List PoolEvent) :
    PoolInv (runPool n evs).1 := by
  suffices h : ∀ (acc : PoolState × List (Nat × ResourceStatus)), PoolInv acc.1 →
      PoolInv (evs.foldl
        (fun acc e =>
          let (s2, msgs) := poolStep acc.1 e
          (s2, acc.2 ++ msgs)) acc).1 by
    exact h (initPoolState n, []) (by intro h2; exact absurd rfl h2)
  induction evs with
  | nil => intro acc h2; exact h2
  | cons e t ih =>
    intro acc h2
    exact ih _ (poolStep_inv acc.1 e h2)

/-- C5: on the states the event loop actually reaches, the acquire arm
behaves exactly as the spec describes: if the wait set is non-empty or the
free set is empty, the request is appended and receives
`QueuePosition(wait_set.length - 1)` (length after the append); otherwise,
a cancelled request receives `Cancelled` and is discarded while the slot
stays in the free set, and a live request receives `Success(slot)` for the
popped front slot. -/
theorem c5_acquire_matches_spec (n : Nat) (evs : List PoolEvent)
    (req : ResourceRequest) (s : PoolState) (hs : s = (runPool n evs).1) :
    ((s.pending ≠ [] ∨ s.available = []) →
      acquireStep s req =
        ({ s with pending := s.pending ++ [req] },
          [(req.id, .QueuePosition ((s.pending ++ [req]).length - 1))])) ∧
    (¬(s.pending ≠ [] ∨ s.available = []) →
      ∃ slot rest, s.available = slot :: rest ∧
        (req.cancelled = true →
          acquireStep s req =
            ({ s with available := rest ++ [slot] }, [(req.id, .Cancelled)])) ∧
        (req.cancelled = false →
          acquireStep s req =
            ({ s with available := rest }, [(req.id, .Success slot)]))) := by
  have hinv : PoolInv s := hs ▸ runPool_inv n evs
  constructor
  · intro h
    have hav : s.available = [] := by
      rcases h with h | h
      · exact hinv h
      · exact h
    unfold acquireStep
    rw [hav]
    simp
  · intro h
    push_neg at h
    obtain ⟨-, hav⟩ := h
    cases hav2 : s.available with
    | nil => exact absurd hav2 hav
    | cons slot rest =>
      refine ⟨slot, rest, rfl, ?_, ?_⟩ <;> intro hc <;>
        simp [acquireStep, hav2, hc]

/-- Witness for C5: a concrete reachable state (free set empty after one
admission on a one-slot pool) on which the theorem's first branch applies. -/
theorem c5_acquire_matches_spec_witness :
    acquireStep (runPool 1 [.acquire (⟨0, false⟩ : ResourceRequest)]).1 (⟨1, false⟩ : ResourceRequest) =
      ({ (runPool 1 [.acquire (⟨0, false⟩ : ResourceRequest)]).1 with
          pending := (runPool 1 [.acquire (⟨0, false⟩ : ResourceRequest)]).1.pending ++ [(⟨1, false⟩ : ResourceRequest)] },
        [(1, .QueuePosition
          (((runPool 1 [.acquire (⟨0, false⟩ : ResourceRequest)]).1.pending ++ [(⟨1, false⟩ : ResourceRequest)]).length - 1))]) :=
  (c5_acquire_matches_spec 1 [.acquire (⟨0, false⟩ : ResourceRequest)] (⟨1, false⟩ : ResourceRequest)
    (runPool 1 [.acquire (⟨0, false⟩ : ResourceRequest)]).1 rfl).1 (by decide)

/-- C1 (refuting evaluation): `release` on a pool whose only waiter is
live both delivers `Success(slot)` to that waiter and, because the wait
set is then empty, reinserts the same slot into the free set
(queueing.rs lines 79-81).  Consequently, with `MAX_SLOTS = 1`, after
requests 0 and 1 arrive and slot 0 is released, request 1 and a later
request 2 both receive `Success 0`: two sessions hold the same slot, and
the number of sessions holding a `Success(slot)` exceeds `MAX_SLOTS`. -/
theorem c1_slot_double_allocated :
    releaseStep { available := [], pending := [(⟨1, false⟩ : ResourceRequest)] } 0 =
      ({ available := [0], pending := [] }, [(1, .Success 0)]) ∧
    (1, ResourceStatus.Success 0) ∈
      (runPool 1 [.acquire ⟨0, false⟩, .acquire (⟨1, false⟩ : ResourceRequest),
        .release 0, .acquire (⟨2, false⟩ : ResourceRequest)]).2 ∧
    (2, ResourceStatus.Success 0) ∈
      (runPool 1 [.acquire ⟨0, false⟩, .acquire (⟨1, false⟩ : ResourceRequest),
        .release 0, .acquire (⟨2, false⟩ : ResourceRequest)]).2 := by decide

/-- C2 (refuting evaluation): the status stream of a single immediately
admitted request carries the terminal `Success 0` *and then* the watcher
task's `Failed "Request cancelled"`, because `resource_queue_manager`
never fulfils the `response` oneshot: two terminal statuses on one
stream, with a `Failed` delivered after the `Success`. -/
theorem c2_stream_two_terminal_statuses :
    requestStream (runPool 1 [.acquire (⟨0, false⟩ : ResourceRequest)]).2 0 =
      [.Success 0, .Failed "Request cancelled"] ∧
    ((requestStream (runPool 1 [.acquire (⟨0, false⟩ : ResourceRequest)]).2 0).filter
      isTerminal).length = 2 := by decide

/-! ## Render geometry (src/render.rs, src/config.rs) -/

/-- Constant `GAME_WIDTH` (config.rs line 5). -/
def GAME_WIDTH : Nat := 640

/-- Constant `GAME_HEIGHT` (config.rs line 6). -/
def GAME_HEIGHT : Nat := 480

/-- Function `get_height_from_width` (render.rs lines 37-41).  The aspect
ratio is hardcoded as `width * 10 / 16` (16:10), with a TODO in the source
to derive it from `GAME_WIDTH` and `GAME_HEIGHT` instead. -/
def get_height_from_width (width : Nat) : Nat :=
  ((width * 10 / 16 + 1) / 2) * 2

/-- Modelled from the spec: `round_even(x)` rounds a ratio to the nearest
integer, halves rounding up, as in the spec example
`round_even(80 * 10 / 16 / 2) * 2 = round_even(25) * 2 = 50`. -/
def round_even (q : ℚ) : ℤ := ⌊q + 1 / 2⌋

/-- Modelled from the spec: the claimed target-rows invariant
`target_rows = round_even(target_cols * game_rows / game_cols / 2) * 2`. -/
def spec_target_rows (cols gameCols gameRows : Nat) : ℤ :=
  round_even ((cols * gameRows : ℚ) / gameCols / 2) * 2

/-- C6 (counterexample): for 80 columns the code yields 50 rows, but the
claimed formula under the configured game resolution 640×480 yields 60. -/
theorem c6_counterexample :
    get_height_from_width 80 = 50 ∧
    spec_target_rows 80 GAME_WIDTH GAME_HEIGHT = 60 ∧
    (get_height_from_width 80 : ℤ) ≠ spec_target_rows 80 GAME_WIDTH GAME_HEIGHT := by
  refine ⟨rfl, ?_, ?_⟩
  · unfold spec_target_rows round_even GAME_WIDTH GAME_HEIGHT
    norm_num
  · unfold spec_target_rows round_even GAME_WIDTH GAME_HEIGHT get_height_from_width
    norm_num

/-- C6 (amended): for every positive column count, the derived height
satisfies `target_rows = round_even(target_cols * 10 / 16 / 2) * 2` — the
spec formula with the hardcoded 16:10 ratio in place of the configured
`GAME_WIDTH`/`GAME_HEIGHT`; for 80 columns this gives 50. -/
theorem c6_height_formula_hardcoded_ratio (w : Nat) (_hw : 0 < w) :
    (get_height_from_width w : ℤ) = round_even ((w * 10 : ℚ) / 16 / 2) * 2 := by
  unfold get_height_from_width round_even
  have h1 : ((w * 10 : ℚ)) / 16 / 2 + 1 / 2 =
      ((10 * (w : ℤ) + 16 : ℤ) : ℚ) / ((32 : ℕ) : ℚ) := by
    push_cast
    ring
  rw [h1, Rat.floor_intCast_div_natCast]
  push_cast [Int.ofNat_tdiv]
  omega

/-- Witness for C6 (amended) at 80 columns. -/
theorem c6_height_formula_hardcoded_ratio_witness :
    0 < 80 ∧ (get_height_from_width 80 : ℤ) = round_even ((80 * 10 : ℚ) / 16 / 2) * 2 :=
  ⟨by decide, c6_height_formula_hardcoded_ratio 80 (by decide)⟩

/-! ## Lossy frame selection (src/render.rs render_byte_stream, src/minecraft.rs)

`render_byte_stream` (render.rs lines 214-302) accumulates read bytes in
`partial_buffer`, extracts every complete frame (`frame_size` bytes each)
into `frame_queue` in arrival order (`push_back`), then pops the newest
frame (`pop_back`), clears the rest of the queue counting them as dropped,
and sends the encoded frame on `render_tx`.  `render_tx` is the sender of
the `mpsc::sync_channel(1)` created in minecraft.rs line 202.
-/

/-- Capacity of the hand-off channel to the output sink:
`mpsc::sync_channel(1)` (minecraft.rs line 202). -/
def completedFramesChannelCapacity : Nat := 1

/-- Frame extraction loop (render.rs lines 253-259):
`while partial_buffer.len() >= frame_size` drain one frame off the front.
Structural recursion on a fuel bounded by the buffer length; a zero
`frame_size` (which would not terminate in the source) extracts nothing. -/
def drainFramesFuel (frameSize : Nat) : Nat → List Nat → List (List Nat) × List Nat
  | 0, buf => ([], buf)
  | fuel + 1, buf =>
    if 0 < frameSize ∧ frameSize ≤ buf.length then
      let rest := drainFramesFuel frameSize fuel (List.drop frameSize buf)
      (List.take frameSize buf :: rest.1, rest.2)
    else ([], buf)

/-- Extracted complete frames and the remaining incomplete tail. -/
def drainFrames (frameSize : Nat) (buf : List Nat) : List (List Nat) × List Nat :=
  drainFramesFuel frameSize buf.length buf

/-- Mutable state of `render_byte_stream` across loop iterations. -/
structure RenderState where
  frameQueue : List (List Nat)
  byteAccumulator : List Nat
deriving DecidableEq, Repr

/-- One pass of the `render_byte_stream` loop body (render.rs lines
239-295) with `incoming` the bytes read this pass: extend the accumulator,
move complete frames onto the holding queue in arrival order, then — if the
queue is non-empty — pop the newest frame (`pop_back`, line 270), clear the
queue counting every remaining (older) frame as dropped (lines 273-277),
and hand the popped frame to the sink.  Returns the next state, the frame
handed off, and the drop count. -/
def renderIteration (frameSize : Nat) (incoming : List Nat) (s : RenderState) :
    RenderState × Option (List Nat) × Nat :=
  let drained := drainFrames frameSize (s.byteAccumulator ++ incoming)
  let queue := s.frameQueue ++ drained.1
  match queue.getLast? with
  | none => ({ frameQueue := queue, byteAccumulator := drained.2 }, none, 0)
  | some latest =>
    ({ frameQueue := [], byteAccumulator := drained.2 }, some latest, queue.length - 1)

/-- C4: whenever the holding queue holds more than one complete frame at
the decision point, the frame handed to the sink is the queue's last
element — the newest, since frames are appended in arrival order — every
older frame is discarded (the queue is left empty) and counted
(`queue.length - 1` drops), and the hand-off channel to the sink has
capacity exactly 1. -/
theorem c4_lossy_selector_newest (frameSize : Nat) (incoming : List Nat)
    (s : RenderState) :
    (1 < (s.frameQueue ++ (drainFrames frameSize (s.byteAccumulator ++ incoming)).1).length →
      (renderIteration frameSize incoming s).2.1 =
        (s.frameQueue ++ (drainFrames frameSize (s.byteAccumulator ++ incoming)).1).getLast? ∧
      (renderIteration frameSize incoming s).2.2 =
        (s.frameQueue ++ (drainFrames frameSize (s.byteAccumulator ++ incoming)).1).length - 1 ∧
      (renderIteration frameSize incoming s).1.frameQueue = []) ∧
    completedFramesChannelCapacity = 1 := by
  refine ⟨?_, rfl⟩
  intro hlen
  unfold renderIteration
  cases hq : (s.frameQueue ++ (drainFrames frameSize (s.byteAccumulator ++ incoming)).1).getLast? with
  | none =>
    rw [List.getLast?_eq_none_iff] at hq
    rw [hq] at hlen
    simp at hlen
  | some latest => simp [hq]

/-- Witness for C4: two frames of three bytes arrive in one pass; the
second (newest) is handed off and one drop is counted. -/
theorem c4_lossy_selector_newest_witness :
    1 < ((⟨[], []⟩ : RenderState).frameQueue ++
        (drainFrames 3 ((⟨[], []⟩ : RenderState).byteAccumulator ++
          [1, 1, 1, 2, 2, 2])).1).length ∧
    (renderIteration 3 [1, 1, 1, 2, 2, 2] ⟨[], []⟩).2.1 = some [2, 2, 2] ∧
    (renderIteration 3 [1, 1, 1, 2, 2, 2] ⟨[], []⟩).2.2 = 1 := by
  have h := (c4_lossy_selector_newest 3 [1, 1, 1, 2, 2, 2] ⟨[], []⟩).1 (by decide)
  refine ⟨by decide, ?_, ?_⟩
  · rw [h.1]; decide
  · rw [h.2.1]; decide

/-! ## Frame encoder (src/render.rs frame_to_rgb_ansi)

`frame_to_rgb_ansi` (render.rs lines 153-176) walks the flat RGB byte
array two rows at a time (`step_by(2)`), emitting one half-block cell per
column and a cursor-down/cursor-left pair per row-pair;
`render_byte_stream` appends the SGR reset `ESC [ m` (line 285) before the
hand-off to the sink.  Bytes are modelled as `Nat`; out-of-range indexing
(`getD` default 0) never occurs for well-sized frames.
-/

/-- Byte access `frame_data[i]`. -/
def px (frame_data : List Nat) (i : Nat) : Nat := frame_data.getD i 0

/-- One cell of the encoder loop body (render.rs lines 159-171):
`top_pixel_start = ((row_index * width) + column_index) * 3`,
`bottom_pixel_start = (((row_index + 1) * width) + column_index) * 3`. -/
def cellStr (frame_data : List Nat) (width r c : Nat) : String :=
  "\x1b[48;2;" ++ toString (px frame_data (((r * width) + c) * 3)) ++ ";" ++
    toString (px frame_data (((r * width) + c) * 3 + 1)) ++ ";" ++
    toString (px frame_data (((r * width) + c) * 3 + 2)) ++ "m\x1b[38;2;" ++
    toString (px frame_data ((((r + 1) * width) + c) * 3)) ++ ";" ++
    toString (px frame_data ((((r + 1) * width) + c) * 3 + 1)) ++ ";" ++
    toString (px frame_data ((((r + 1) * width) + c) * 3 + 2)) ++ "m▄"

/-- Encoder `frame_to_rgb_ansi` (render.rs lines 153-176): the cursor-home
sequence for the offsets, then for each even `row_index` below `height`
(`step_by(2)`) the row of cells followed by `ESC [ B` and
`ESC [ width D`. -/
def frame_to_rgb_ansi (frame_data : List Nat) (height width offset_x offset_y : Nat) :
    String :=
  "\x1b[" ++ toString (offset_y + 1) ++ ";" ++ toString (offset_x + 1) ++ "H" ++
    String.join (((List.range height).filter (fun r => r % 2 == 0)).map (fun r =>
      String.join ((List.range width).map (fun c => cellStr frame_data width r c)) ++
        "\x1b[B\x1b[" ++ toString width ++ "D"))

/-- The painted frame handed to the sink (render.rs lines 282-288): the
encoder output followed by the SGR reset `ESC [ m`, and nothing else. -/
def paintedFrame (frame_data : List Nat) (height width offset_x offset_y : Nat) :
    String :=
  frame_to_rgb_ansi frame_data height width offset_x offset_y ++ "\x1b[m"

/-- The spec's `pixel(r, c)` accessor: the RGB triple of the pixel at row
`r`, column `c` of a row-major `width`-wide frame. -/
def pixel (frame_data : List Nat) (width r c : Nat) : Nat × Nat × Nat :=
  (px frame_data (((r * width) + c) * 3),
   px frame_data (((r * width) + c) * 3 + 1),
   px frame_data (((r * width) + c) * 3 + 2))

/-- Modelled from the spec: the cell
`CSI 48;2;top.r;top.g;top.b m CSI 38;2;bot.r;bot.g;bot.b m U+2584`. -/
def specCell (top bot : Nat × Nat × Nat) : String :=
  "\x1b[48;2;" ++ toString top.1 ++ ";" ++ toString top.2.1 ++ ";" ++
    toString top.2.2 ++ "m\x1b[38;2;" ++ toString bot.1 ++ ";" ++
    toString bot.2.1 ++ ";" ++ toString bot.2.2 ++ "m▄"

/-- Modelled from the spec: one row-pair at source row `r`: for each
column `c` the cell with `top = pixel(r, c)` and `bot = pixel(r+1, c)`,
then `CSI B` and `CSI width D`. -/
def specRowPair (frame_data : List Nat) (width r : Nat) : String :=
  String.join ((List.range width).map (fun c =>
    specCell (pixel frame_data width r c) (pixel frame_data width (r + 1) c))) ++
    "\x1b[B\x1b[" ++ toString width ++ "D"

/-- Modelled from the spec: the whole painted frame — cursor home for the
offsets, the row-pairs for `r ∈ {0, 2, …, H−2}`, and the SGR reset. -/
def specPaintedFrame (frame_data : List Nat) (height width offset_x offset_y : Nat) :
    String :=
  "\x1b[" ++ toString (offset_y + 1) ++ ";" ++ toString (offset_x + 1) ++ "H" ++
    String.join (((List.range (height / 2)).map (fun i => 2 * i)).map
      (specRowPair frame_data width)) ++ "\x1b[m"

theorem range_filter_even (n : Nat) :
    (List.range (2 * n)).filter (fun r => r % 2 == 0) =
      (List.range n).map (fun i => 2 * i) := by
  induction n with
  | zero => rfl
  | succ k ih =>
    have h2 : 2 * (k + 1) = (2 * k) + 1 + 1 := by ring
    rw [h2, List.range_succ, List.range_succ, List.filter_append, List.filter_append, ih,
      List.range_succ, List.map_append]
    simp [Nat.mul_mod_right, Nat.succ_mod_two_eq_zero_iff]

/-- C9: for every frame of positive width and positive even height, the
string handed to the sink is exactly the claimed encoding: the cursor-home
sequence for the offsets; for each row-pair `r ∈ {0, 2, …, H−2}` and each
column the cell `CSI 48;2;top m CSI 38;2;bot m U+2584` with
`top = pixel(r, c)`, `bot = pixel(r+1, c)`, followed by `CSI B` then
`CSI width D`; then the SGR reset — and nothing else. -/
theorem c9_painted_frame_matches_spec (frame_data : List Nat)
    (height width offset_x offset_y : Nat) (_hw : 0 < width) (_hh0 : 0 < height)
    (hh : Even height) (_hlen : frame_data.length = 3 * width * height) :
    paintedFrame frame_data height width offset_x offset_y =
      specPaintedFrame frame_data height width offset_x offset_y := by
  obtain ⟨k, hk⟩ := hh
  have h2 : height = 2 * k := by omega
  subst h2
  unfold paintedFrame frame_to_rgb_ansi specPaintedFrame
  rw [range_filter_even, Nat.mul_div_cancel_left _ (by norm_num : (0 : Nat) < 2)]
  rfl

/-- Witness for C9: a one-column, two-row frame. -/
theorem c9_painted_frame_matches_spec_witness :
    (0 : Nat) < 1 ∧ (0 : Nat) < 2 ∧ Even 2 ∧
      ([10, 20, 30, 40, 50, 60] : List Nat).length = 3 * 1 * 2 ∧
      paintedFrame [10, 20, 30, 40, 50, 60] 2 1 0 0 =
        specPaintedFrame [10, 20, 30, 40, 50, 60] 2 1 0 0 :=
  ⟨by decide, by decide, ⟨1, by decide⟩, by decide,
    c9_painted_frame_matches_spec [10, 20, 30, 40, 50, 60] 2 1 0 0
      (by decide) (by decide) ⟨1, by decide⟩ (by decide)⟩

/-! ## Input translation (src/xdo.rs, src/sshng.rs)

`forward_input_to_minecraft` (xdo.rs lines 12-270) translates decoded
terminal events into `xdotool` child processes.  Every invocation goes
through the local helper `run_xdotool` (lines 18-27), which sets the
child's `DISPLAY` environment variable.  The session side (sshng.rs line
167) derives the display of the slot granted by the pool as
`":{resource_id+1}"`.
-/

/-- The `DISPLAY` value `run_xdotool` (xdo.rs lines 18-27) sets on every
xdotool child: the literal `":1"`, independent of the session's slot. -/
def run_xdotool_display : String := ":1"

/-- The display name for the slot a session is assigned
(sshng.rs line 167): `format!(":{}", resource_id + 1)`. -/
def sessionDisplayName (resource_id : Nat) : String :=
  ":" ++ toString (resource_id + 1)

/-- C3 (refuting evaluation): the input translator invokes xdotool with
`DISPLAY=":1"` for every session, so for any slot other than 0 — e.g.
slot 1, whose session display is `":2"` — the synthetic input is sent to
a display that is not the session's. -/
theorem c3_xdotool_display_fixed :
    run_xdotool_display = ":1" ∧
    sessionDisplayName 0 = ":1" ∧
    sessionDisplayName 1 = ":2" ∧
    run_xdotool_display ≠ sessionDisplayName 1 := by
  refine ⟨rfl, rfl, rfl, ?_⟩
  decide

/-- Synthetic-input invocations issued through `run_xdotool`. -/
inductive XdoAction where
  | key (name : String)
  | keydown (name : String)
  | keyup (name : String)
  | mousemove (x y : Nat)
  | mousemove_relative (dx dy : Int)
  | mousedown (n : Nat)
  | mouseup (n : Nat)
  | click (n : Nat)
deriving DecidableEq, Repr

/-- Struct `KeyState` (xdo.rs lines 51-55); `release_time` is a monotonic
instant in milliseconds. -/
structure KeyState where
  pressed : Bool
  release_time : Nat
deriving DecidableEq, Repr

/-- The `wasd_release_time` table (xdo.rs lines 57-61), as an association
list over the four movement keys, all initially unpressed. -/
def initWasdTable (now : Nat) : List (Char × KeyState) :=
  [('w', ⟨false, now⟩), ('a', ⟨false, now⟩), ('s', ⟨false, now⟩), ('d', ⟨false, now⟩)]

/-- The `'w' | 'a' | 's' | 'd'` arm (xdo.rs lines 131-139): if the key is
tracked and `!state.pressed`, issue `keydown c` and set `pressed = true`;
in every case move `release_time` to `now + 100` ms. -/
def handleWasdChar (table : List (Char × KeyState)) (c : Char) (now : Nat) :
    List (Char × KeyState) × List XdoAction :=
  match table.find? (fun p => p.1 == c) with
  | none => (table, [])
  | some p =>
    (table.map (fun q => if q.1 == c then (q.1, ⟨true, now + 100⟩) else q),
     if !p.2.pressed then [.keydown (toString c)] else [])

/-- The auto-release sweep (xdo.rs lines 263-269): for every tracked key
with `pressed` and `now >= release_time`, issue `keyup` and clear
`pressed`. -/
def sweepReleases (table : List (Char × KeyState)) (now : Nat) :
    List (Char × KeyState) × List XdoAction :=
  (table.map (fun q =>
    if q.2.pressed && decide (q.2.release_time ≤ now) then (q.1, ⟨false, q.2.release_time⟩) else q),
   (table.filter (fun q => q.2.pressed && decide (q.2.release_time ≤ now))).map
     (fun q => .keyup (toString q.1)))

/-- One observable outcome of `input_rx.recv_timeout` (xdo.rs line 76)
together with the current instant: a movement-key character event, any
other event (which leaves the wasd table untouched but still reaches the
sweep), or a receive timeout. -/
inductive InputStep where
  | wasdChar (c : Char) (now : Nat)
  | otherEvent (now : Nat)
  | timeout (now : Nat)
deriving DecidableEq, Repr

/-- One iteration of the `while running` loop (xdo.rs lines 75-270).  On
an event (`Ok`), the handler runs and control falls through to the sweep
at lines 263-269; on a timeout (`Err(Timeout)`, lines 253-256), the
`continue` statement jumps straight back to the loop head, so the sweep
does not run. -/
def loopIteration (table : List (Char × KeyState)) :
    InputStep → List (Char × KeyState) × List XdoAction
  | .wasdChar c now =>
    let h := handleWasdChar table c now
    let sw := sweepReleases h.1 now
    (sw.1, h.2 ++ sw.2)
  | .otherEvent now =>
    let sw := sweepReleases table now
    (sw.1, sw.2)
  | .timeout _ => (table, [])

/-- Run the input-translation loop from the initial table (time 0),
collecting every synthetic-input action in order. -/
def runInputLoop (steps : List InputStep) :
    List (Char × KeyState) × List XdoAction :=
  steps.foldl
    (fun acc ev =>
      let r := loopIteration acc.1 ev
      (r.1, acc.2 ++ r.2))
    (initWasdTable 0, [])

/-- C7 (refuting evaluation): after `Char w` at t = 0 ms, a timeout
iteration at t = 200 ms — past the 100 ms deadline — issues no `keyup`,
because the timeout arm's `continue` skips the sweep; the key is left
pressed, while a sweep at t = 200 ms over the same table would have
issued `keyup w` and cleared it.  This contradicts the per-iteration
sweep (the source's own comment at xdo.rs line 263 says it should run on
every loop iteration). -/
theorem c7_timeout_skips_release_sweep :
    (runInputLoop [.wasdChar 'w' 0, .timeout 200]).2 = [.keydown "w"] ∧
    (runInputLoop [.wasdChar 'w' 0, .timeout 200]).1.find?
      (fun p => p.1 == 'w') = some ('w', ⟨true, 100⟩) ∧
    (sweepReleases (runInputLoop [.wasdChar 'w' 0, .timeout 200]).1 200).2 =
      [.keyup "w"] := by decide

/-- Struct `TerminalSize` (config.rs lines 15-21). -/
structure TerminalSize where
  width : Nat
  height : Nat
  target_width : Nat
  target_height : Nat
deriving DecidableEq, Repr

/-- Round a rational to the nearest integer, ties to even — the rounding
IEEE 754 applies to a value scaled to integer mantissa granularity. -/
def rnde (q : ℚ) : ℤ :=
  if Int.fract q < 1 / 2 then ⌊q⌋
  else if 1 / 2 < Int.fract q then ⌊q⌋ + 1
  else if Even ⌊q⌋ then ⌊q⌋ else ⌊q⌋ + 1

theorem rnde_intCast (z : ℤ) : rnde (z : ℚ) = z := by
  simp [rnde, Int.fract_intCast]

theorem rnde_natCast (n : ℕ) : rnde (n : ℚ) = n := by
  have h := rnde_intCast (n : ℤ)
  simpa using h

/-- Correctly rounded IEEE binary32 value of a rational: scale the value
to a 24-bit mantissa using its base-2 logarithm, round to nearest with
ties to even, and scale back.  This is exact IEEE 754 single-precision
rounding for every positive value in the normal, non-overflowing range
`[2^-126, 2^128)`; all values arising in `scale_mouse_coords` under the
theorems below (non-negative operands, positive divisors) lie in that
range or are zero.  Division by zero (infinite result) and NaN lie
outside the model; the theorems about `scale_mouse_coords` assume a
positive divisor. -/
def roundF32 (q : ℚ) : ℚ :=
  if q = 0 then 0
  else (rnde (q * (2 : ℚ) ^ ((23 : ℤ) - Int.log 2 q)) : ℚ) * (2 : ℚ) ^ (Int.log 2 q - 23)

/-- A dyadic rational with a mantissa below `2^24` is representable in
binary32, so correctly rounding it is the identity. -/
theorem roundF32_dyadic (m : ℕ) (e : ℤ) (hm : m < 2 ^ 24) :
    roundF32 ((m : ℚ) * (2 : ℚ) ^ e) = (m : ℚ) * (2 : ℚ) ^ e := by
  rcases Nat.eq_zero_or_pos m with hm0 | hm0
  · subst hm0
    simp [roundF32]
  · have h2ne : (2 : ℚ) ≠ 0 := by norm_num
    have h2pos : (0 : ℚ) < (2 : ℚ) ^ e := zpow_pos (by norm_num) e
    have hqpos : (0 : ℚ) < (m : ℚ) * (2 : ℚ) ^ e := by positivity
    have hqne : (m : ℚ) * (2 : ℚ) ^ e ≠ 0 := ne_of_gt hqpos
    set L : ℤ := Int.log 2 ((m : ℚ) * (2 : ℚ) ^ e) with hL
    have hlog_le : L ≤ e + 23 := by
      by_contra hcon
      push_neg at hcon
      have h1 : (2 : ℚ) ^ (e + 24) ≤ (2 : ℚ) ^ L :=
        zpow_le_zpow_right₀ (by norm_num) (by omega)
      have h2 : ((2 : ℕ) : ℚ) ^ L ≤ (m : ℚ) * (2 : ℚ) ^ e :=
        Int.zpow_log_le_self (by norm_num) hqpos
      have hmlt : (m : ℚ) < (2 : ℚ) ^ (24 : ℕ) := by exact_mod_cast hm
      have h3 : (m : ℚ) * (2 : ℚ) ^ e < (2 : ℚ) ^ (e + 24) := by
        calc (m : ℚ) * (2 : ℚ) ^ e < (2 : ℚ) ^ (24 : ℕ) * (2 : ℚ) ^ e :=
              mul_lt_mul_of_pos_right hmlt h2pos
          _ = (2 : ℚ) ^ (e + 24) := by
              rw [← zpow_natCast (2 : ℚ) 24, ← zpow_add₀ h2ne]
              congr 1
              omega
      have h2q : (2 : ℚ) ^ L ≤ (m : ℚ) * (2 : ℚ) ^ e := by exact_mod_cast h2
      linarith
    have hd : (0 : ℤ) ≤ e + 23 - L := by omega
    set dn : ℕ := (e + 23 - L).toNat with hdn
    have hdz : (dn : ℤ) = e + 23 - L := Int.toNat_of_nonneg hd
    have hint : (m : ℚ) * (2 : ℚ) ^ e * (2 : ℚ) ^ ((23 : ℤ) - L) =
        ((m * 2 ^ dn : ℕ) : ℚ) := by
      push_cast
      rw [← zpow_natCast (2 : ℚ) dn, mul_assoc, ← zpow_add₀ h2ne]
      congr 2
      omega
    unfold roundF32
    rw [if_neg hqne, ← hL, hint, rnde_natCast]
    push_cast
    rw [← zpow_natCast (2 : ℚ) dn, mul_assoc, ← zpow_add₀ h2ne]
    congr 2
    omega

/-- The Rust saturating float-to-integer cast `as u16`: truncate toward
zero, clamp to `[0, 65535]`.  For non-negative values truncation is the
floor; for negative values both the truncation and the clamp give 0, so
`Int.toNat ∘ Int.floor` is faithful for every finite value. -/
def castU16 (q : ℚ) : ℕ := min 65535 (Int.toNat ⌊q⌋)

/-- In the f32-exact regime — a value `c` with `c < 2^24` divided by a
power of two and multiplied by `m * 2^p` with `m < 2^24` and
`c * m < 2^24` — every rounding in the chain is the identity, and the
saturating cast yields the clamped integer quotient. -/
theorem castU16_roundF32_chain (c m p k : ℕ) (hc : c < 2 ^ 24) (hm : m < 2 ^ 24)
    (hcm : c * m < 2 ^ 24) :
    castU16 (roundF32 (roundF32 ((roundF32 ((c : ℕ) : ℚ)) / roundF32 (((2 ^ k : ℕ)) : ℚ)) *
      roundF32 ((m * 2 ^ p : ℕ) : ℚ))) = min 65535 (c * (m * 2 ^ p) / 2 ^ k) := by
  have h2ne : (2 : ℚ) ≠ 0 := by norm_num
  have hc0 : roundF32 ((c : ℕ) : ℚ) = ((c : ℕ) : ℚ) := by
    have h := roundF32_dyadic c 0 hc
    simpa using h
  have hk0 : roundF32 (((2 ^ k : ℕ)) : ℚ) = (((2 ^ k : ℕ)) : ℚ) := by
    have h := roundF32_dyadic 1 (k : ℤ) (by norm_num)
    rw [Nat.cast_one, one_mul, zpow_natCast] at h
    have hcast : ((2 ^ k : ℕ) : ℚ) = (2 : ℚ) ^ k := by push_cast; ring
    rw [hcast]
    exact h
  have hm0 : roundF32 ((m * 2 ^ p : ℕ) : ℚ) = ((m * 2 ^ p : ℕ) : ℚ) := by
    have h := roundF32_dyadic m (p : ℤ) hm
    rw [zpow_natCast] at h
    have hcast : ((m * 2 ^ p : ℕ) : ℚ) = (m : ℚ) * (2 : ℚ) ^ p := by push_cast; ring
    rw [hcast]
    exact h
  have hdiv : ((c : ℕ) : ℚ) / (((2 ^ k : ℕ)) : ℚ) = (c : ℚ) * (2 : ℚ) ^ (-(k : ℤ)) := by
    have hcast : ((2 ^ k : ℕ) : ℚ) = (2 : ℚ) ^ (k : ℤ) := by
      push_cast
      rw [zpow_natCast]
    rw [hcast, div_eq_mul_inv, ← zpow_neg]
  have hdiv0 : roundF32 ((c : ℚ) * (2 : ℚ) ^ (-(k : ℤ))) = (c : ℚ) * (2 : ℚ) ^ (-(k : ℤ)) :=
    roundF32_dyadic c (-(k : ℤ)) hc
  have hprod : (c : ℚ) * (2 : ℚ) ^ (-(k : ℤ)) * ((m * 2 ^ p : ℕ) : ℚ) =
      ((c * m : ℕ) : ℚ) * (2 : ℚ) ^ ((p : ℤ) - (k : ℤ)) := by
    have hcast : ((m * 2 ^ p : ℕ) : ℚ) = (m : ℚ) * (2 : ℚ) ^ (p : ℤ) := by
      push_cast
      rw [zpow_natCast]
    rw [hcast, zpow_sub₀ h2ne, zpow_neg]
    push_cast
    field_simp
    ring
  have hprod0 : roundF32 (((c * m : ℕ) : ℚ) * (2 : ℚ) ^ ((p : ℤ) - (k : ℤ))) =
      ((c * m : ℕ) : ℚ) * (2 : ℚ) ^ ((p : ℤ) - (k : ℤ)) :=
    roundF32_dyadic (c * m) ((p : ℤ) - (k : ℤ)) hcm
  rw [hc0, hk0, hm0, hdiv, hdiv0, hprod, hprod0]
  have hval : ((c * m : ℕ) : ℚ) * (2 : ℚ) ^ ((p : ℤ) - (k : ℤ)) =
      ((c * m * 2 ^ p : ℕ) : ℚ) / ((2 ^ k : ℕ) : ℚ) := by
    rw [zpow_sub₀ h2ne]
    push_cast
    rw [zpow_natCast, zpow_natCast]
    field_simp
  rw [hval]
  unfold castU16
  rw [Int.floor_toNat, Nat.floor_div_eq_div]
  congr 1
  rw [mul_assoc]

/-- Function `scale_mouse_coords` (xdo.rs lines 30-41).  Each `f32`
operation — the operand conversions `column as f32`,
`term_size.target_width as f32`, `GAME_WIDTH as f32`, the division and
the multiplication — is modelled by correct binary32 rounding
(`roundF32`) of the exact rational result, and the final `as u16` by the
saturating truncation `castU16`.
`actual_height_in_pixels = term_size.target_height / 2` is the source's
integer division. -/
def scale_mouse_coords (column row : Nat) (term_size : TerminalSize) : Nat × Nat :=
  (castU16 (roundF32 (roundF32 (roundF32 (column : ℚ) /
      roundF32 (term_size.target_width : ℚ)) * roundF32 (GAME_WIDTH : ℚ))),
   castU16 (roundF32 (roundF32 (roundF32 (row : ℚ) /
      roundF32 ((term_size.target_height / 2 : ℕ) : ℚ)) * roundF32 (GAME_HEIGHT : ℚ))))

/-- Modelled from the spec: `game_x = round(x_cell / target_cols * game_cols)`. -/
def spec_game_x (x_cell target_cols : Nat) : ℤ :=
  round ((x_cell : ℚ) / (target_cols : ℚ) * (GAME_WIDTH : ℚ))

/-- Modelled from the spec:
`game_y = round(y_cell / (target_rows / 2) * game_rows)`. -/
def spec_game_y (y_cell target_rows : Nat) : ℤ :=
  round ((y_cell : ℚ) / ((target_rows : ℚ) / 2) * (GAME_HEIGHT : ℚ))

/-- C8 (counterexample): at cell x = 3 with 512 target columns every f32
operation in the chain is exact — `3 / 512 * 640 = 3.75` is a dyadic
rational with a small mantissa — and the `as u16` cast truncates it to 3,
while the claimed rounding gives 4. -/
theorem c8_counterexample_truncation :
    (scale_mouse_coords 3 0 ⟨0, 0, 512, 100⟩).1 = 3 ∧
    spec_game_x 3 512 = 4 ∧
    ((scale_mouse_coords 3 0 ⟨0, 0, 512, 100⟩).1 : ℤ) ≠ spec_game_x 3 512 := by
  have h1 : (scale_mouse_coords 3 0 ⟨0, 0, 512, 100⟩).1 = 3 := by
    have h512 : (512 : ℕ) = 2 ^ 9 := by norm_num
    have hgw : GAME_WIDTH = 5 * 2 ^ 7 := by norm_num [GAME_WIDTH]
    show castU16 (roundF32 (roundF32 (roundF32 ((3 : ℕ) : ℚ) /
        roundF32 (((512 : ℕ)) : ℚ)) * roundF32 ((GAME_WIDTH : ℕ) : ℚ))) = 3
    rw [h512, hgw,
      castU16_roundF32_chain 3 5 7 9 (by norm_num) (by norm_num) (by norm_num)]
    norm_num
  have h2 : spec_game_x 3 512 = 4 := by
    unfold spec_game_x GAME_WIDTH
    rw [round_eq]
    norm_num
  refine ⟨h1, h2, ?_⟩
  rw [h1, h2]
  decide

/-- C8 (amended): the `as u16` conversion is a saturating truncation
toward zero of the f32-computed value, never a rounding to nearest; on
every terminal size whose `target_width` and `target_height / 2` are
powers of two — the regime in which the whole f32 chain is exact, which
contains the counterexample's 512-column layout — the coordinates are
exactly the clamped integer quotients
`min 65535 (x_cell * game_cols / target_cols)` and
`min 65535 (y_cell * game_rows / (target_rows / 2))`.  On other sizes the
result is still the saturating truncation of the f32 value, which may
differ from the exact quotient by the accumulated f32 rounding. -/
theorem c8_scaling_truncates (column row : Nat) (ts : TerminalSize)
    (hcol : column < 2 ^ 16) (hrow : row < 2 ^ 16)
    (hw : ∃ k, ts.target_width = 2 ^ k) (hh : ∃ j, ts.target_height / 2 = 2 ^ j) :
    scale_mouse_coords column row ts =
      (min 65535 (column * GAME_WIDTH / ts.target_width),
       min 65535 (row * GAME_HEIGHT / (ts.target_height / 2))) := by
  obtain ⟨k, hk⟩ := hw
  obtain ⟨j, hj⟩ := hh
  have hgw : GAME_WIDTH = 5 * 2 ^ 7 := by norm_num [GAME_WIDTH]
  have hgh : GAME_HEIGHT = 15 * 2 ^ 5 := by norm_num [GAME_HEIGHT]
  have hc24 : column < 2 ^ 24 := lt_trans hcol (by norm_num)
  have hr24 : row < 2 ^ 24 := lt_trans hrow (by norm_num)
  have hcm : column * 5 < 2 ^ 24 := by
    norm_num at hcol ⊢
    omega
  have hrm : row * 15 < 2 ^ 24 := by
    norm_num at hrow ⊢
    omega
  unfold scale_mouse_coords
  rw [hk, hj, hgw, hgh,
    castU16_roundF32_chain column 5 7 k hc24 (by norm_num) hcm,
    castU16_roundF32_chain row 15 5 j hr24 (by norm_num) hrm]

/-- Witness for C8 (amended): a 512-column terminal with
`target_height = 128` (so `target_height / 2 = 64 = 2^6`). -/
theorem c8_scaling_truncates_witness :
    3 < 2 ^ 16 ∧ 7 < 2 ^ 16 ∧
    (∃ k, (⟨0, 0, 512, 128⟩ : TerminalSize).target_width = 2 ^ k) ∧
    (∃ j, (⟨0, 0, 512, 128⟩ : TerminalSize).target_height / 2 = 2 ^ j) ∧
    scale_mouse_coords 3 7 ⟨0, 0, 512, 128⟩ =
      (min 65535 (3 * GAME_WIDTH / 512), min 65535 (7 * GAME_HEIGHT / 64)) :=
  ⟨by decide, by decide, ⟨9, rfl⟩, ⟨6, rfl⟩,
    c8_scaling_truncates 3 7 ⟨0, 0, 512, 128⟩ (by decide) (by decide) ⟨9, rfl⟩ ⟨6, rfl⟩⟩

/-- Mouse-handling state of `forward_input_to_minecraft` (xdo.rs lines
63-66): `inventory_open` starts `true`; the last position is a pair of
`u16` both initialised to `0` — not an `Option`. -/
structure MouseState where
  inventory_open : Bool
  last_mouse_x : Nat
  last_mouse_y : Nat
deriving DecidableEq, Repr

/-- Initial mouse state (xdo.rs lines 64-66). -/
def initMouseState : MouseState :=
  { inventory_open := true, last_mouse_x := 0, last_mouse_y := 0 }

/-- Function `calculate_relative_movement` (xdo.rs lines 44-48): the raw
delta scaled by the sensitivity gain 5. -/
def calculate_relative_movement (current_x current_y last_x last_y : Nat) :
    Int × Int :=
  (((current_x : Int) - (last_x : Int)) * 5,
   ((current_y : Int) - (last_y : Int)) * 5)

/-- The motion part of the `InputEvent::Mouse` arm (xdo.rs lines 191-216):
scale the cell coordinates; in inventory (absolute) mode issue `mousemove`;
otherwise issue `mousemove_relative` only when both stored coordinates are
positive and the scaled delta is non-zero; in every case overwrite the
stored last position with the scaled coordinates. -/
def handleMouseMove (st : MouseState) (column row : Nat) (ts : TerminalSize) :
    MouseState × List XdoAction :=
  let g := scale_mouse_coords column row ts
  let acts :=
    if st.inventory_open then
      [XdoAction.mousemove g.1 g.2]
    else if 0 < st.last_mouse_x ∧ 0 < st.last_mouse_y then
      let d := calculate_relative_movement g.1 g.2 st.last_mouse_x st.last_mouse_y
      if d.1 ≠ 0 ∨ d.2 ≠ 0 then [XdoAction.mousemove_relative d.1 d.2] else []
    else []
  ({ st with last_mouse_x := g.1, last_mouse_y := g.2 }, acts)

/-- C10: in Relative mode (inventory closed) a mouse event emits nothing —
in particular no `mousemove_relative` — whenever the stored last position
has a zero coordinate, regardless of the delta; this is not restricted to
the first-ever event because the last position is a `(0,0)`-initialised
pair rather than an `Option`, so any prior event that scaled to a zero
coordinate suppresses the next relative motion too; the stored position is
still overwritten with the event's scaled coordinates. -/
theorem c10_zero_coordinate_suppresses_relative (st : MouseState)
    (column row : Nat) (ts : TerminalSize)
    (hmode : st.inventory_open = false)
    (h0 : st.last_mouse_x = 0 ∨ st.last_mouse_y = 0) :
    (handleMouseMove st column row ts).2 = [] ∧
    (handleMouseMove st column row ts).1.last_mouse_x =
      (scale_mouse_coords column row ts).1 ∧
    (handleMouseMove st column row ts).1.last_mouse_y =
      (scale_mouse_coords column row ts).2 ∧
    initMouseState.last_mouse_x = 0 ∧ initMouseState.last_mouse_y = 0 := by
  have hcond : ¬(0 < st.last_mouse_x ∧ 0 < st.last_mouse_y) := by
    rcases h0 with h | h <;> simp [h]
  refine ⟨?_, ?_, ?_, rfl, rfl⟩ <;> simp [handleMouseMove, hmode, hcond]

/-- Witness for C10: a non-initial Relative-mode state whose previous
event scaled to `(5, 0)`; the next event at cell `(40, 10)` of an 80×50
terminal emits nothing although its delta is far from zero, and the
stored position becomes that event's scaled coordinates. -/
theorem c10_zero_coordinate_suppresses_relative_witness :
    (⟨false, 5, 0⟩ : MouseState).inventory_open = false ∧
    ((handleMouseMove ⟨false, 5, 0⟩ 40 10 ⟨0, 0, 80, 50⟩).2 = [] ∧
      (handleMouseMove ⟨false, 5, 0⟩ 40 10 ⟨0, 0, 80, 50⟩).1.last_mouse_x =
        (scale_mouse_coords 40 10 ⟨0, 0, 80, 50⟩).1 ∧
      (handleMouseMove ⟨false, 5, 0⟩ 40 10 ⟨0, 0, 80, 50⟩).1.last_mouse_y =
        (scale_mouse_coords 40 10 ⟨0, 0, 80, 50⟩).2 ∧
      initMouseState.last_mouse_x = 0 ∧ initMouseState.last_mouse_y = 0) :=
  ⟨rfl, c10_zero_coordinate_suppresses_relative ⟨false, 5, 0⟩ 40 10 ⟨0, 0, 80, 50⟩
    rfl (Or.inr rfl)⟩

end Ansicraft
